import Mathlib

/-!
Verification of the classifier reconciliation core (projectsveltos classifier).

This file gives a shallow embedding, in Lean 4, of the reconciliation and
conflict-arbitration engine of the classifier controller:

* the per-(classifier, cluster) deploy/undeploy state machine
  (`processClassifier`, `removeClassifier`, `convertResultStatus`,
  `getClassifierInClusterHashAndStatus`),
* the fan-out orchestrator (`deployClassifier`, `undeployClassifier`,
  `reconcileDelete`, `updateClusterInfo`, `getListOfClusters`),
* the in-memory consistency index (`updateMaps` over `ClusterMap` /
  `ClassifierMap`),
* the matching-cluster status computation
  (`updateMatchingClustersAndRegistrations`, `handleLabelRegistrations`),
* the pull-mode report mirroring (`updateClassifierReport`).

External collaborators (Kubernetes API, the asynchronous deployer, the
key-manager arbiter) are modelled as explicit environment records carrying
the outcomes of the calls the code makes; Go byte slices become
`Option (List Nat)` (`none` is the nil slice), Go string-typed enum fields
with a zero value become `Option` of an inductive, and Go map iteration is
modelled as iteration over a first-insertion-ordered duplicate-free list.
Every definition is translated directly from the Go source.
-/

/-- Mirrors `corev1.ObjectReference` restricted to the four fields this
controller reads and writes (namespace, name, apiVersion, kind). -/
structure ObjectReference where
  nspace : String
  name : String
  apiVersion : String
  kind : String
  deriving DecidableEq, Repr

/-- Convergence status of a Classifier feature in one cluster
(`libsveltosv1alpha1.ClassifierFeatureStatus`). -/
inductive ClassifierFeatureStatus where
  | Provisioning
  | Provisioned
  | Failed
  | Removing
  | Removed
  deriving DecidableEq, Repr

/-- Mirrors `libsveltosv1alpha1.ClusterInfo`: one per-cluster convergence
record inside `Classifier.Status.ClusterInfo`.  `status = none` models the
Go zero value (empty string) of the status field; `hash = none` models a
nil byte slice. -/
structure ClusterInfo where
  cluster : ObjectReference
  status : Option ClassifierFeatureStatus
  hash : Option (List Nat)
  failureMessage : Option String
  deriving DecidableEq, Repr

/-- Mirrors `libsveltosv1alpha1.UnManagedLabel`: a label key this classifier
wants but cannot own, with an optional conflict message. -/
structure UnManagedLabel where
  key : String
  failureMessage : Option String
  deriving DecidableEq, Repr

/-- Mirrors `libsveltosv1alpha1.MachingClusterStatus`: one entry per cluster
whose ClassifierReport currently has match=true. -/
structure MachingClusterStatus where
  clusterRef : ObjectReference
  managedLabels : List String
  unManagedLabels : List UnManagedLabel
  deriving DecidableEq, Repr

/-- The Go zero value of `MachingClusterStatus` (all-empty cluster
reference, nil label slices), as produced by
`make([]MachingClusterStatus, n)`. -/
def zeroMachingClusterStatus : MachingClusterStatus :=
  { clusterRef := { nspace := "", name := "", apiVersion := "", kind := "" }
    managedLabels := []
    unManagedLabels := [] }

/-- Mirrors `libsveltosv1alpha1.ClassifierReportSpec` (the fields the
controller reads): the reporting cluster and the boolean match result. -/
structure ClassifierReportSpec where
  clusterNamespace : String
  clusterName : String
  isMatch : Bool
  deriving DecidableEq, Repr

/-- Mirrors `libsveltosv1alpha1.ClassifierReport`: metadata labels
(`none` models a nil map) and the spec.  `name` is the object name. -/
structure ClassifierReport where
  name : String
  labels : Option (List (String × String))
  spec : ClassifierReportSpec
  deriving DecidableEq, Repr

/-! ## Matching-cluster status computation
(`updateMatchingClustersAndRegistrations`, classifier_controller) -/

/-- Insertion into the model of a Go map used as a set: first-insertion
order, duplicate-free. -/
def dedupInsert (l : List ObjectReference) (x : ObjectReference) : List ObjectReference :=
  if x ∈ l then l else l ++ [x]

/-- The `currentMatchingClusters` map built by
`updateMatchingClustersAndRegistrations`: every report with
`Spec.Match = true` contributes the cluster reference
`{Namespace, Name}` (other fields zero). -/
def currentMatchingClusters (reports : List ClassifierReport) : List ObjectReference :=
  reports.foldl
    (fun acc r =>
      if r.spec.isMatch then
        dedupInsert acc
          { nspace := r.spec.clusterNamespace, name := r.spec.clusterName
            apiVersion := "", kind := "" }
      else acc)
    []

/-- The status-building loop of `updateMatchingClustersAndRegistrations`:

    matchingClusterStatus := make([]MachingClusterStatus, len(m))
    i := 0
    for c := range m ... matchingClusterStatus[i] = ...

The Go code never increments `i`, so every iteration writes index 0 of the
zero-initialised slice; this model reproduces that faithfully via
`List.set _ 0`.  `classify` is the outcome of `classifyLabels` (managed
keys, unmanaged keys) for each cluster. -/
def buildMatchingClusterStatus
    (classify : ObjectReference → List String × List UnManagedLabel)
    (clusters : List ObjectReference) : List MachingClusterStatus :=
  clusters.foldl
    (fun arr c =>
      arr.set 0
        { clusterRef := c
          managedLabels := (classify c).1
          unManagedLabels := (classify c).2 })
    (List.replicate clusters.length zeroMachingClusterStatus)

/-- Status.MachingClusterStatuses as rebuilt by one pass of
`updateMatchingClustersAndRegistrations` for a non-deleted Classifier. -/
def updateMatchingClustersAndRegistrations
    (classify : ObjectReference → List String × List UnManagedLabel)
    (reports : List ClassifierReport) : List MachingClusterStatus :=
  buildMatchingClusterStatus classify (currentMatchingClusters reports)

/-! ## Report mirroring (`updateClassifierReport`, classifier_report_collection.go) -/

/-- Association lookup in the model of a Go label map. -/
def labelsLookup : List (String × String) → String → Option String
  | [], _ => none
  | (k, v) :: rest, key => if k = key then some v else labelsLookup rest key

/-- Mirrors `getClassifierReportName`: the mirrored report name is
`classifierName--clusterName`. -/
def getClassifierReportName (classifierName clusterName : String) : String :=
  classifierName ++ "--" ++ clusterName

/-- Mirrors `getClusterInfo` (the cluster label value):
`clusterNamespace--clusterName`. -/
def getClusterInfo (clusterNamespace clusterName : String) : String :=
  clusterNamespace ++ "--" ++ clusterName

/-- The label key carrying the owning classifier name
(`libsveltosv1alpha1.ClassifierLabelName`). -/
def classifierLabelName : String := "projectsveltos.io/classifier-name"

/-- The label key carrying the source cluster
(`classifierReportClusterLabel`). -/
def classifierReportClusterLabel : String := "projectsveltos.io/cluster"

/-- A mirrored ClassifierReport object in the management cluster, keyed by
namespace/name. -/
structure MirroredReport where
  nspace : String
  name : String
  labels : Option (List (String × String))
  spec : ClassifierReportSpec
  deriving DecidableEq, Repr

/-- Replace the binding of `key` in the model of a Go label map (or append
it), mirroring `m[key] = v`. -/
def labelsSet : List (String × String) → String → String → List (String × String)
  | [], key, v => [(key, v)]
  | (k, w) :: rest, key, v =>
      if k = key then (key, v) :: rest else (k, w) :: labelsSet rest key v

/-- Lookup of the mirrored report `cluster.Namespace/reportName` in the
management cluster state (the `c.Get` call of `updateClassifierReport`). -/
def findMirrored : List MirroredReport → String → String → Option MirroredReport
  | [], _, _ => none
  | m :: rest, ns, n =>
      if m.nspace = ns ∧ m.name = n then some m else findMirrored rest ns n

/-- Replace the first mirrored report with the given namespace/name. -/
def replaceMirrored : List MirroredReport → MirroredReport → List MirroredReport
  | [], r => [r]
  | m :: rest, r =>
      if m.nspace = r.nspace ∧ m.name = r.name then r :: rest
      else m :: replaceMirrored rest r

/-- Mirrors `updateClassifierReport`: validates the pulled report's labels,
then creates or updates the management-side mirror keyed by
`(classifier, cluster)`.  Returns the error message (if any) together with
the management-cluster report list after the call; on the error paths the
Go function returns before any Create/Update, so the state is returned
unchanged. -/
def updateClassifierReport (mgmt : List MirroredReport)
    (clusterNamespace clusterName : String) (classiferReport : ClassifierReport) :
    Option String × List MirroredReport :=
  match classiferReport.labels with
  | none => (some "classifierReport is malformed. Labels is empty", mgmt)
  | some lbls =>
    match labelsLookup lbls classifierLabelName with
    | none => (some "classifierReport is malformed. Label missing", mgmt)
    | some classifierName =>
      let reportName := getClassifierReportName classifierName clusterName
      let newSpec :=
        { classiferReport.spec with
            clusterNamespace := clusterNamespace, clusterName := clusterName }
      match findMirrored mgmt clusterNamespace reportName with
      | none =>
          let created : MirroredReport :=
            { nspace := clusterNamespace
              name := reportName
              labels := some (labelsSet lbls classifierReportClusterLabel
                (getClusterInfo clusterNamespace clusterName))
              spec := newSpec }
          (none, mgmt ++ [created])
      | some current =>
          let updated : MirroredReport :=
            { current with
                spec := newSpec
                labels := some (labelsSet (current.labels.getD [])
                  classifierReportClusterLabel
                  (getClusterInfo clusterNamespace clusterName)) }
          (none, replaceMirrored mgmt updated)

/-! ## Deployer collaborator contract (libsveltos deployer, spec section 6) -/

/-- Result statuses of the asynchronous work queue (`deployer.ResultStatus`). -/
inductive ResultStatus where
  | Deployed
  | InProgress
  | Failed
  | Removed
  | Unavailable
  deriving DecidableEq, Repr

/-- Mirrors `deployer.Result`: a result status plus an optional error. -/
structure DeployResult where
  resultStatus : ResultStatus
  err : Option String
  deriving DecidableEq, Repr

/-- Mirrors `ClassifierReconciler.convertResultStatus`: translation from a
queue result to a `ClassifierFeatureStatus` (nil for `Unavailable`). -/
def convertResultStatus (result : DeployResult) : Option ClassifierFeatureStatus :=
  match result.resultStatus with
  | .Deployed => some .Provisioned
  | .Failed => some .Failed
  | .InProgress => some .Provisioning
  | .Removed => some .Removed
  | .Unavailable => none

/-- Mirrors `getClassifierInClusterHashAndStatus`: the hash and status
recorded in `Status.ClusterInfo` for the given cluster (matching all four
reference fields), or `none` if the cluster was never recorded.  The Go
function returns `(nil, nil)` in the latter case and a pointer to the
entry's fields otherwise. -/
def getClassifierInClusterHashAndStatus :
    List ClusterInfo → ObjectReference →
    Option (Option (List Nat) × Option ClassifierFeatureStatus)
  | [], _ => none
  | cInfo :: rest, cluster =>
      if cInfo.cluster = cluster then some (cInfo.hash, cInfo.status)
      else getClassifierInClusterHashAndStatus rest cluster

/-- Go `reflect.DeepEqual` between the recorded hash (a possibly-nil byte
slice) and the freshly computed hash (never nil, it is a sha256 sum): a nil
slice is never DeepEqual to a non-nil one. -/
def deepEqualHash : Option (List Nat) → List Nat → Bool
  | none, _ => false
  | some h, current => h = current

/-- The feature id driven by this reconciler
(`libsveltosv1alpha1.FeatureClassifier`). -/
def featureClassifier : String := "Classifier"

/-- Error message returned by `processClassifier` when an undeploy for the
pair is still in flight. -/
def cleanupInProgressMsg : String :=
  "cleanup of " ++ featureClassifier ++
    " in cluster still in progress. Wait before redeploying"

/-- Error message returned by `removeClassifier` when a deploy for the
pair is still in flight. -/
def deployInProgressMsg : String :=
  "deploy of " ++ featureClassifier ++
    " in cluster still in progress. Wait before redeploying"

/-- Outcomes of the external calls `processClassifier` makes for one
(classifier, cluster) pair: the combined pause check (`isPaused`, covering
both the cluster-level pause and the classifier's pause annotation), the
readiness check (`IsClusterReadyToBeConfigured`), the deployer's in-flight
check for the undeploy direction, the deployer's stored result for the
deploy direction, and the error (if any) of the `Deployer.Deploy` dispatch
call.  `Except.error` models a failed API call. -/
structure PairEnv where
  pausedResult : Except String Bool
  readyResult : Except String Bool
  undeployInProgress : Bool
  deployResult : DeployResult
  deployErr : Option String

/-- Mirrors `ClassifierReconciler.canProceed`: false when the cluster is
paused or not yet ready to be configured, propagating check errors. -/
def canProceed (env : PairEnv) : Except String Bool :=
  match env.pausedResult with
  | .error e => .error e
  | .ok true => .ok false
  | .ok false =>
    match env.readyResult with
    | .error e => .error e
    | .ok ready => .ok ready

/-- What one `processClassifier` call produced: the returned `ClusterInfo`
(nil on the skip and error paths), the returned error, and whether
`Deployer.Deploy` was invoked for the deploy direction. -/
structure ProcessOutcome where
  clusterInfo : Option ClusterInfo
  err : Option String
  deployDispatched : Bool
  deriving DecidableEq, Repr

/-- The local variable `hash` of `processClassifier`: the first component
of `getClassifierInClusterHashAndStatus`, nil when the cluster was never
recorded. -/
def storedHashOf (statusEntries : List ClusterInfo) (cluster : ObjectReference) :
    Option (List Nat) :=
  match getClassifierInClusterHashAndStatus statusEntries cluster with
  | none => none
  | some p => p.1

/-- The local variable `currentStatus` of `processClassifier`: the second
component of `getClassifierInClusterHashAndStatus` (a nil pointer when the
cluster was never recorded, hence the outer `Option`). -/
def storedStatusOf (statusEntries : List ClusterInfo) (cluster : ObjectReference) :
    Option (Option ClassifierFeatureStatus) :=
  match getClassifierInClusterHashAndStatus statusEntries cluster with
  | none => none
  | some p => some p.2

/-- Mirrors `ClassifierReconciler.processClassifier` for one
(classifier, cluster) pair.  `statusEntries` is
`classifier.Status.ClusterInfo` as read at the start of the pass,
`currentHash` the hash `getCurrentHash` just computed. -/
def processClassifier (statusEntries : List ClusterInfo) (cluster : ObjectReference)
    (currentHash : List Nat) (env : PairEnv) : ProcessOutcome :=
  match canProceed env with
  | .error e => { clusterInfo := none, err := some e, deployDispatched := false }
  | .ok false => { clusterInfo := none, err := none, deployDispatched := false }
  | .ok true =>
    if env.undeployInProgress then
      { clusterInfo := none, err := some cleanupInProgressMsg, deployDispatched := false }
    else
      let hash := storedHashOf statusEntries cluster
      let currentStatus := storedStatusOf statusEntries cluster
      let isConfigSame := deepEqualHash hash currentHash
      let status : Option ClassifierFeatureStatus :=
        if isConfigSame then convertResultStatus env.deployResult else none
      match status with
      | some s =>
        let errorMessage := env.deployResult.err.getD ""
        if s = .Provisioned then
          { clusterInfo := some
              { cluster := cluster, status := some s, hash := some currentHash
                failureMessage := some errorMessage }
            err := none, deployDispatched := false }
        else if s = .Provisioning then
          { clusterInfo := some
              { cluster := cluster, status := some s, hash := some currentHash
                failureMessage := some errorMessage }
            err := some "classifier is still being provisioned"
            deployDispatched := false }
        else
          { clusterInfo := some
              { cluster := cluster, status := some s, hash := some currentHash
                failureMessage := none }
            err := none, deployDispatched := false }
      | none =>
        if isConfigSame ∧ currentStatus = some (some .Provisioned) then
          { clusterInfo := some
              { cluster := cluster, status := some .Provisioned
                hash := some currentHash, failureMessage := none }
            err := none, deployDispatched := false }
        else
          match env.deployErr with
          | some e =>
              { clusterInfo := none, err := some e, deployDispatched := true }
          | none =>
              { clusterInfo := some
                  { cluster := cluster, status := some .Provisioning
                    hash := some currentHash, failureMessage := none }
                err := none, deployDispatched := true }

/-- Outcomes of the external calls `removeClassifier` makes for one
(classifier, cluster) pair: the pause check, the deployer's in-flight
check for the deploy direction, the deployer's stored result for the
undeploy direction, and the error (if any) of the undeploy dispatch. -/
structure RemovePairEnv where
  pausedResult : Except String Bool
  deployInProgress : Bool
  undeployResult : DeployResult
  undeployDispatchErr : Option String

/-- What one `removeClassifier` call produced: the returned error and
whether `Deployer.Deploy` was invoked for the undeploy direction. -/
structure RemoveOutcome where
  err : Option String
  undeployDispatched : Bool
  deriving DecidableEq, Repr

/-- Mirrors `ClassifierReconciler.removeClassifier` for one
(classifier, cluster) pair: pause check, then refusal while a deploy is in
flight, then translation of the stored undeploy result, then dispatch of
an undeploy request. -/
def removeClassifier (env : RemovePairEnv) : RemoveOutcome :=
  match env.pausedResult with
  | .error e => { err := some e, undeployDispatched := false }
  | .ok true => { err := none, undeployDispatched := false }
  | .ok false =>
    if env.deployInProgress then
      { err := some deployInProgressMsg, undeployDispatched := false }
    else
      let status := convertResultStatus env.undeployResult
      if status = some .Provisioning then
        { err := some "feature is still being removed", undeployDispatched := false }
      else if status = some .Removed then
        { err := none, undeployDispatched := false }
      else
        match env.undeployDispatchErr with
        | some e => { err := some e, undeployDispatched := true }
        | none => { err := some "cleanup request is queued", undeployDispatched := true }

/-! ## Fan-out orchestrator: deploy direction (`deployClassifier`) -/

/-- What one `deployClassifier` pass produced: the rebuilt
`Status.ClusterInfo` (set via `SetClusterInfo` before returning) and the
returned error. -/
structure DeployClassifierOutcome where
  newClusterInfo : List ClusterInfo
  err : Option String
  deriving DecidableEq, Repr

/-- The loop of `deployClassifier` over the pairs still to process, with
`statusEntries` the full `Status.ClusterInfo` read at the start of the
pass: returns the collected ClusterInfo entries (in iteration order), the
last error seen, and the all-deployed flag. -/
def deployClassifierLoop (statusEntries : List ClusterInfo) (currentHash : List Nat)
    (env : ObjectReference → PairEnv) :
    List ClusterInfo → List ClusterInfo × Option String × Bool
  | [] => ([], none, true)
  | e :: rest =>
    let o := processClassifier statusEntries e.cluster currentHash (env e.cluster)
    let r := deployClassifierLoop statusEntries currentHash env rest
    let errSeen := match r.2.1 with | some m => some m | none => o.err
    match o.clusterInfo with
    | some ci =>
        (ci :: r.1, errSeen, decide (ci.status = some .Provisioned) && r.2.2)
    | none => (r.1, errSeen, r.2.2)

/-- Mirrors `ClassifierReconciler.deployClassifier`: drives
`processClassifier` across every entry of `Status.ClusterInfo`, rebuilds
the status from the returned entries (dropping nil ones), and reports the
last error, or a still-queued error when some entry is not yet
Provisioned. -/
def deployClassifier (statusEntries : List ClusterInfo) (currentHash : List Nat)
    (env : ObjectReference → PairEnv) : DeployClassifierOutcome :=
  let res := deployClassifierLoop statusEntries currentHash env statusEntries
  { newClusterInfo := res.1
    err :=
      match res.2.1 with
      | some e => some e
      | none =>
        if res.2.2 then none
        else some "request to deploy Classifier is still queued in one ore more clusters" }

/-! ## Fan-out orchestrator: delete direction
(`undeployClassifier`, `reconcileDelete`) -/

/-- Outcome of the `getCluster` call for one recorded cluster. -/
inductive GetClusterRes where
  | found
  | notFound
  | apiError (msg : String)
  deriving DecidableEq, Repr

/-- Outcomes of the external calls the delete path makes for one recorded
cluster: the `getCluster` lookup and the `removeClassifier` collaborator
outcomes. -/
structure DeleteEntryEnv where
  getCluster : GetClusterRes
  remove : RemovePairEnv

/-- First loop of `undeployClassifier`: collect the clusters that still
exist, skipping not-found ones and aborting on any other API error. -/
def collectClusters (entries : List ClusterInfo)
    (env : ObjectReference → DeleteEntryEnv) : Except String (List ObjectReference)
  :=
  match entries with
  | [] => .ok []
  | e :: rest =>
    match (env e.cluster).getCluster with
    | .notFound => collectClusters rest env
    | .apiError msg => .error msg
    | .found =>
      match collectClusters rest env with
      | .error msg => .error msg
      | .ok l => .ok (e.cluster :: l)

/-- What one `undeployClassifier` pass produced: the returned error, the
clusters for which an undeploy request was dispatched, and the new
`Status.ClusterInfo` (`some []` is the success-path `SetClusterInfo`;
`none` means the status list was not rewritten). -/
structure UndeployClassifierOutcome where
  err : Option String
  undeployDispatchedOn : List ObjectReference
  newClusterInfo : Option (List ClusterInfo)
  deriving DecidableEq, Repr

/-- Mirrors `ClassifierReconciler.undeployClassifier`: drives
`removeClassifier` for every recorded cluster that still exists, collects
the still-failing ones as Removing entries, and succeeds (clearing
`Status.ClusterInfo`) only when none failed. -/
def undeployClassifier (entries : List ClusterInfo)
    (env : ObjectReference → DeleteEntryEnv) : UndeployClassifierOutcome :=
  match collectClusters entries env with
  | .error e => { err := some e, undeployDispatchedOn := [], newClusterInfo := none }
  | .ok clusters =>
    let processed := clusters.map (fun c => (c, removeClassifier (env c).remove))
    let clusterInfo := processed.filterMap
      (fun p => p.2.err.map (fun msg =>
        ({ cluster := p.1, status := some .Removing, hash := none
           failureMessage := some msg } : ClusterInfo)))
    let dispatched := processed.filterMap
      (fun p => if p.2.undeployDispatched then some p.1 else none)
    if clusterInfo.length ≠ 0 then
      { err := some ("still in the process of removing Classifier from " ++
          toString clusterInfo.length ++ " clusters")
        undeployDispatchedOn := dispatched
        newClusterInfo := none }
    else
      { err := none, undeployDispatchedOn := dispatched, newClusterInfo := some [] }

/-- The controller's report-collection mode. -/
inductive ReportMode where
  | CollectFromManagementCluster
  | AgentSendReportsNoGateway
  deriving DecidableEq, Repr

/-- Outcomes of the external calls `reconcileDelete` makes: the
key-manager deregistration, the per-cluster delete environment, the
report removal, the mode, and the access-request removal. -/
structure DeleteEnv where
  removeRegistrationsErr : Option String
  entryEnv : ObjectReference → DeleteEntryEnv
  removeReportsErr : Option String
  mode : ReportMode
  removeAccessRequestErr : Option String

/-- What one `reconcileDelete` pass produced: whether the finalizer was
removed, whether the pass requeued, the returned error, and the clusters
for which an undeploy was dispatched. -/
structure DeleteOutcome where
  finalizerRemoved : Bool
  requeue : Bool
  err : Option String
  undeployDispatchedOn : List ObjectReference
  deriving DecidableEq, Repr

/-- Mirrors `ClassifierReconciler.reconcileDelete`: clears registrations,
drives `undeployClassifier`, removes reports (and the access request in
pull mode), and removes the finalizer only when all of that succeeded;
any undeploy failure requeues after `deleteRequeueAfter` with the
finalizer retained. -/
def reconcileDelete (entries : List ClusterInfo) (env : DeleteEnv) : DeleteOutcome :=
  match env.removeRegistrationsErr with
  | some e =>
      { finalizerRemoved := false, requeue := false, err := some e
        undeployDispatchedOn := [] }
  | none =>
    let u := undeployClassifier entries env.entryEnv
    if u.err.isSome then
      { finalizerRemoved := false, requeue := true, err := none
        undeployDispatchedOn := u.undeployDispatchedOn }
    else if env.removeReportsErr.isSome then
      { finalizerRemoved := false, requeue := true, err := none
        undeployDispatchedOn := u.undeployDispatchedOn }
    else if env.mode = .CollectFromManagementCluster ∧ env.removeAccessRequestErr.isSome then
      { finalizerRemoved := false, requeue := true, err := none
        undeployDispatchedOn := u.undeployDispatchedOn }
    else
      { finalizerRemoved := true, requeue := false, err := none
        undeployDispatchedOn := u.undeployDispatchedOn }

/-! ## Cluster-list discovery (`getListOfClusters`, `updateClusterInfo`) -/

/-- A CAPI Cluster object as read by `getListOfClusters` (`deleting`
models a non-zero DeletionTimestamp). -/
structure ClusterObj where
  nspace : String
  name : String
  deleting : Bool
  deriving DecidableEq, Repr

/-- The object reference `getListOfClusters` builds for a cluster
(namespace/name only). -/
def clusterRef (c : ClusterObj) : ObjectReference :=
  { nspace := c.nspace, name := c.name, apiVersion := "", kind := "" }

/-- Mirrors `ClassifierReconciler.getListOfClusters`: every live,
non-deleting cluster, referenced by namespace/name only. -/
def getListOfClusters (clusterList : List ClusterObj) : List ObjectReference :=
  (clusterList.filter (fun c => !c.deleting)).map clusterRef

/-- The `getClusterID` closure of `updateClusterInfo`: key a cluster by
`namespace/name`. -/
def getClusterID (cluster : ObjectReference) : String :=
  cluster.nspace ++ "/" ++ cluster.name

/-- Mirrors `ClassifierReconciler.updateClusterInfo`: appends one fresh
(zero-status) `ClusterInfo` entry for each discovered cluster whose
`namespace/name` key has no entry yet, keeping every existing entry. -/
def updateClusterInfo (statusEntries : List ClusterInfo)
    (matchingCluster : List ObjectReference) : List ClusterInfo :=
  let clusterMapKeys := statusEntries.map (fun e => getClusterID e.cluster)
  let newClusterInfo :=
    (matchingCluster.filter (fun c => getClusterID c ∉ clusterMapKeys)).map
      (fun c =>
        ({ cluster := c, status := none, hash := none, failureMessage := none }
          : ClusterInfo))
  statusEntries ++ newClusterInfo

/-! ## Consistency index (`updateMaps`, `getClusterMapForEntry`) -/

/-- Mirrors `libsveltosv1alpha1.PolicyRef`: the key type of both index
maps. -/
structure PolicyRef where
  kind : String
  nspace : String
  name : String
  deriving DecidableEq, Repr

/-- A `libsveltosset.Set` of policy references, modelled by a list with
set semantics. -/
abbrev PolicySet := List PolicyRef

/-- Mirrors `Set.Insert`. -/
def setInsert (s : PolicySet) (x : PolicyRef) : PolicySet :=
  if x ∈ s then s else x :: s

/-- Mirrors `Set.Erase`. -/
def setErase (s : PolicySet) (x : PolicyRef) : PolicySet :=
  s.filter (fun y => y ≠ x)

/-- Mirrors `Set.Difference`: elements of `a` not in `b`. -/
def setDifference (a b : PolicySet) : PolicySet :=
  a.filter (fun y => y ∉ b)

/-- One of the two index maps (`ClusterMap`, `ClassifierMap`), modelled as
an association list mirroring a Go map. -/
abbrev IndexMap := List (PolicyRef × PolicySet)

/-- Go map read `m[k]`; a missing key reads as the empty set (the only
observation the code makes of a missing entry, via
`getClusterMapForEntry`'s creation of an empty set). -/
def mapLookup : IndexMap → PolicyRef → PolicySet
  | [], _ => []
  | (k', v) :: rest, k => if k' = k then v else mapLookup rest k

/-- Go map write `m[k] = v`. -/
def mapSet : IndexMap → PolicyRef → PolicySet → IndexMap
  | [], k, v => [(k, v)]
  | (k', v') :: rest, k, v =>
      if k' = k then (k, v) :: rest else (k', v') :: mapSet rest k v

/-- `getClusterMapForEntry(entry).op(x)`: update the set stored at a key
(creating it empty first when missing). -/
def mapUpdate (m : IndexMap) (k : PolicyRef) (f : PolicySet → PolicySet) : IndexMap :=
  mapSet m k (f (mapLookup m k))

/-- The `PolicyRef` under which a cluster appears in the index
(`Kind: "Cluster"`). -/
def clusterPolicyRef (cluster : ObjectReference) : PolicyRef :=
  { kind := "Cluster", nspace := cluster.nspace, name := cluster.name }

/-- The `PolicyRef` under which a classifier appears in the index
(`Kind: ClassifierKind`, cluster-scoped so no namespace). -/
def classifierPolicyRef (name : String) : PolicyRef :=
  { kind := "Classifier", nspace := "", name := name }

/-- The two in-memory index maps of `ClassifierReconciler`. -/
structure ReconcilerMaps where
  clusterMap : IndexMap
  classifierMap : IndexMap

/-- The `currentClusters` set built at the top of `updateMaps` from
`Status.ClusterInfo`. -/
def currentClustersOf (entries : List ClusterInfo) : PolicySet :=
  entries.foldl (fun s e => setInsert s (clusterPolicyRef e.cluster)) []

/-- Mirrors `ClassifierReconciler.updateMaps`: diff the previous forward
entry against the clusters now in `Status.ClusterInfo`, insert the
classifier into each current cluster's reverse set, erase it from each
no-longer-current cluster's reverse set, and replace the forward entry. -/
def updateMaps (m : ReconcilerMaps) (classifierName : String)
    (entries : List ClusterInfo) : ReconcilerMaps :=
  let classifierInfo := classifierPolicyRef classifierName
  let currentClusters := currentClustersOf entries
  let toBeRemoved := setDifference (mapLookup m.classifierMap classifierInfo) currentClusters
  let cm1 := entries.foldl
    (fun cm e => mapUpdate cm (clusterPolicyRef e.cluster) (fun s => setInsert s classifierInfo))
    m.clusterMap
  let cm2 := toBeRemoved.foldl
    (fun cm k => mapUpdate cm k (fun s => setErase s classifierInfo))
    cm1
  { clusterMap := cm2
    classifierMap := mapSet m.classifierMap classifierInfo currentClusters }

/-! ## Label-ownership arbiter call sequence (`handleLabelRegistrations`) -/

/-- One call made to the key-manager arbiter, identified by the target
cluster. -/
inductive ArbiterCall where
  | removeStale (nspace name : String)
  | registerLabels (nspace name : String)
  | removeAll (nspace name : String)
  deriving DecidableEq, Repr

/-- Mirrors `ClassifierReconciler.handleLabelRegistrations` as the
sequence of arbiter calls it makes: for each currently matching cluster,
`RemoveStaleRegistrations` then `RegisterClassifierForLabels`; afterwards,
`RemoveAllRegistrations` for every previously matching cluster that no
longer matches.  `current` and `old` are the two Go maps, modelled as
duplicate-free lists in iteration order. -/
def handleLabelRegistrations (current old : List ObjectReference) : List ArbiterCall :=
  (current.foldr
    (fun c acc => .removeStale c.nspace c.name :: .registerLabels c.nspace c.name :: acc)
    [])
  ++ (old.filter (fun c => c ∉ current)).map (fun c => .removeAll c.nspace c.name)

/-! ## Theorems -/

/-- A report with match=true from cluster ns/c1. -/
def reportC1a : ClassifierReport :=
  { name := "r1", labels := none
    spec := { clusterNamespace := "ns", clusterName := "c1", isMatch := true } }

/-- A report with match=true from cluster ns/c2. -/
def reportC1b : ClassifierReport :=
  { name := "r2", labels := none
    spec := { clusterNamespace := "ns", clusterName := "c2", isMatch := true } }

/-- Claim C1: after a reconciliation pass, Status.MachingClusterStatuses
should contain exactly one well-formed entry per cluster whose
ClassifierReport has match=true.  The code violates this: the loop index
`i` in `updateMatchingClustersAndRegistrations` is never incremented, so
with two matching clusters (ns/c1 and ns/c2, both reports match=true) the
rebuilt list holds the last-iterated cluster at index 0 and a zero-valued
entry at index 1 — cluster ns/c1 has no entry at all. -/
theorem matching_status_zero_entry_bug :
    updateMatchingClustersAndRegistrations (fun _ => (["env"], []))
        [reportC1a, reportC1b] =
      [{ clusterRef := { nspace := "ns", name := "c2", apiVersion := "", kind := "" }
         managedLabels := ["env"], unManagedLabels := [] },
       zeroMachingClusterStatus]
    ∧ ∀ s ∈ updateMatchingClustersAndRegistrations (fun _ => (["env"], []))
        [reportC1a, reportC1b],
        s.clusterRef ≠ { nspace := "ns", name := "c1", apiVersion := "", kind := "" } := by
  refine ⟨by decide, by decide⟩

/-- Claim C2: for a pair that passes the pause/readiness admission, an
undeploy in flight makes `processClassifier` return the
cleanup-in-progress error without invoking the deployer's dispatch; and,
symmetrically, for a non-paused pair a deploy in flight makes
`removeClassifier` return the wait-before-redeploying error without
dispatching an undeploy. -/
theorem admission_gates_refuse_concurrent_opposite_work
    (statusEntries : List ClusterInfo) (cluster : ObjectReference)
    (currentHash : List Nat) (env : PairEnv) (renv : RemovePairEnv)
    (hcp : canProceed env = .ok true)
    (hu : env.undeployInProgress = true)
    (hp : renv.pausedResult = .ok false)
    (hd : renv.deployInProgress = true) :
    processClassifier statusEntries cluster currentHash env =
      { clusterInfo := none, err := some cleanupInProgressMsg, deployDispatched := false }
    ∧ removeClassifier renv =
      { err := some deployInProgressMsg, undeployDispatched := false } := by
  constructor
  · unfold processClassifier
    rw [hcp]
    simp [hu]
  · unfold removeClassifier
    rw [hp]
    simp [hd]

/-- A pair environment with an undeploy in flight and no other obstacle. -/
def gateEnvDeploy : PairEnv :=
  { pausedResult := .ok false, readyResult := .ok true
    undeployInProgress := true
    deployResult := { resultStatus := .Unavailable, err := none }
    deployErr := none }

/-- A pair environment with a deploy in flight and no other obstacle. -/
def gateEnvRemove : RemovePairEnv :=
  { pausedResult := .ok false, deployInProgress := true
    undeployResult := { resultStatus := .Unavailable, err := none }
    undeployDispatchErr := none }

/-- Concrete instantiation of the admission-gate theorem. -/
theorem admission_gates_refuse_concurrent_opposite_work_witness :
    canProceed gateEnvDeploy = .ok true
    ∧ gateEnvDeploy.undeployInProgress = true
    ∧ gateEnvRemove.pausedResult = .ok false
    ∧ gateEnvRemove.deployInProgress = true
    ∧ (processClassifier [] { nspace := "ns", name := "c1", apiVersion := "", kind := "" }
        [1] gateEnvDeploy =
        { clusterInfo := none, err := some cleanupInProgressMsg, deployDispatched := false }
      ∧ removeClassifier gateEnvRemove =
        { err := some deployInProgressMsg, undeployDispatched := false }) :=
  ⟨rfl, rfl, rfl, rfl,
    admission_gates_refuse_concurrent_opposite_work []
      { nspace := "ns", name := "c1", apiVersion := "", kind := "" }
      [1] gateEnvDeploy gateEnvRemove rfl rfl rfl rfl⟩

/-- Claim C10: a pulled ClassifierReport with a nil Labels map, or without
the classifier-name label, makes `updateClassifierReport` return an error
before any Create or Update call, leaving the management-side mirrored
reports unchanged. -/
theorem malformed_report_rejected_without_mirroring
    (mgmt : List MirroredReport) (clusterNamespace clusterName : String)
    (cr : ClassifierReport)
    (hbad : cr.labels = none ∨
      ∃ lbls, cr.labels = some lbls ∧ labelsLookup lbls classifierLabelName = none) :
    ∃ msg, updateClassifierReport mgmt clusterNamespace clusterName cr = (some msg, mgmt) := by
  rcases hbad with h | ⟨lbls, hl, hlook⟩
  · exact ⟨"classifierReport is malformed. Labels is empty",
      by unfold updateClassifierReport; rw [h]⟩
  · exact ⟨"classifierReport is malformed. Label missing",
      by unfold updateClassifierReport; rw [hl]; simp [hlook]⟩

/-- A pulled report with a non-nil label map lacking the classifier-name
label. -/
def reportMissingLabel : ClassifierReport :=
  { name := "r1", labels := some [("owner", "me")]
    spec := { clusterNamespace := "", clusterName := "", isMatch := true } }

/-- Concrete instantiation of the malformed-report theorem at a report
whose label map lacks the classifier-name key. -/
theorem malformed_report_rejected_without_mirroring_witness :
    (reportMissingLabel.labels = none ∨
      ∃ lbls, reportMissingLabel.labels = some lbls ∧
        labelsLookup lbls classifierLabelName = none)
    ∧ ∃ msg, updateClassifierReport [] "ns" "c1" reportMissingLabel = (some msg, []) :=
  ⟨Or.inr ⟨[("owner", "me")], rfl, by decide⟩,
    malformed_report_rejected_without_mirroring [] "ns" "c1" reportMissingLabel
      (Or.inr ⟨[("owner", "me")], rfl, by decide⟩)⟩

/-- The cluster ns/c1 as recorded in Status.ClusterInfo. -/
def clusterA : ObjectReference :=
  { nspace := "ns", name := "c1", apiVersion := "", kind := "" }

/-- A recorded entry for `clusterA`: hash [1], status Provisioning (as
written by the pass that dispatched the deploy). -/
def entryProvisioningA : ClusterInfo :=
  { cluster := clusterA, status := some .Provisioning, hash := some [1]
    failureMessage := none }

/-- A pair environment where the deployer holds no result (e.g. after a
process restart) and nothing else blocks the pair. -/
def envUnavailable : PairEnv :=
  { pausedResult := .ok false, readyResult := .ok true
    undeployInProgress := false
    deployResult := { resultStatus := .Unavailable, err := none }
    deployErr := none }

/-- Claim C3 as stated is false: for the pair (classifier, ns/c1) with
recorded hash [1] equal to the current hash [1], recorded status
Provisioning, and no result on the queue, `processClassifier` dispatches
a fresh deploy request even though the stored hash equals the current
hash. -/
theorem hash_match_redispatch_counterexample :
    storedHashOf [entryProvisioningA] clusterA = some [1]
    ∧ (processClassifier [entryProvisioningA] clusterA [1] envUnavailable).deployDispatched
        = true := by
  refine ⟨by decide, by decide⟩


/-- The stored hash DeepEquals the current hash exactly when it is that
hash (a nil recorded hash never matches). -/
theorem deepEqualHash_eq_true (o : Option (List Nat)) (h : List Nat) :
    deepEqualHash o h = true ↔ o = some h := by
  cases o <;> simp [deepEqualHash]

/-- Evaluation of `processClassifier` on the path where the admission
checks pass and the recorded hash equals the current one. -/
theorem processClassifier_configSame
    (statusEntries : List ClusterInfo) (cluster : ObjectReference)
    (currentHash : List Nat) (env : PairEnv)
    (hcp : canProceed env = .ok true)
    (hu : env.undeployInProgress = false)
    (hsh : storedHashOf statusEntries cluster = some currentHash) :
    processClassifier statusEntries cluster currentHash env =
      match convertResultStatus env.deployResult with
      | some s =>
        if s = .Provisioned then
          ⟨some ⟨cluster, some s, some currentHash, some (env.deployResult.err.getD "")⟩,
            none, false⟩
        else if s = .Provisioning then
          ⟨some ⟨cluster, some s, some currentHash, some (env.deployResult.err.getD "")⟩,
            some "classifier is still being provisioned", false⟩
        else ⟨some ⟨cluster, some s, some currentHash, none⟩, none, false⟩
      | none =>
        if storedStatusOf statusEntries cluster = some (some .Provisioned) then
          ⟨some ⟨cluster, some .Provisioned, some currentHash, none⟩, none, false⟩
        else
          match env.deployErr with
          | some e => ⟨none, some e, true⟩
          | none => ⟨some ⟨cluster, some .Provisioning, some currentHash, none⟩,
              none, true⟩ := by
  unfold processClassifier
  rw [hcp, hu]
  simp only [Bool.false_eq_true, if_false, hsh, deepEqualHash, decide_True, if_true,
    true_and]

/-- Evaluation of `processClassifier` on the path where the admission
checks pass and the recorded hash does not equal the current one. -/
theorem processClassifier_configDiff
    (statusEntries : List ClusterInfo) (cluster : ObjectReference)
    (currentHash : List Nat) (env : PairEnv)
    (hcp : canProceed env = .ok true)
    (hu : env.undeployInProgress = false)
    (hne : deepEqualHash (storedHashOf statusEntries cluster) currentHash = false) :
    processClassifier statusEntries cluster currentHash env =
      match env.deployErr with
      | some e => ⟨none, some e, true⟩
      | none =>
          ⟨some ⟨cluster, some .Provisioning, some currentHash, none⟩, none, true⟩ := by
  unfold processClassifier
  rw [hcp, hu]
  simp only [Bool.false_eq_true, if_false, hne, false_and, if_true]

/-- Claim C3 (amended): for a pair whose stored hash equals the current
hash, provided the queue holds a result (or the recorded status is
already Provisioned), `processClassifier` dispatches no new deploy and
translates the result into the final status: Deployed becomes
Provisioned, Failed becomes Failed, InProgress becomes a renewed
Provisioning (with a still-provisioning error), and a missing result with
recorded status Provisioned is treated as satisfied, staying
Provisioned. -/
theorem hash_match_translates_result_without_redispatch
    (statusEntries : List ClusterInfo) (cluster : ObjectReference)
    (currentHash : List Nat) (env : PairEnv)
    (hcp : canProceed env = .ok true)
    (hu : env.undeployInProgress = false)
    (hsh : storedHashOf statusEntries cluster = some currentHash)
    (hok : env.deployResult.resultStatus ≠ .Unavailable
      ∨ storedStatusOf statusEntries cluster = some (some .Provisioned)) :
    (processClassifier statusEntries cluster currentHash env).deployDispatched = false
    ∧ (env.deployResult.resultStatus = .Deployed →
        processClassifier statusEntries cluster currentHash env =
          ⟨some ⟨cluster, some .Provisioned, some currentHash,
              some (env.deployResult.err.getD "")⟩, none, false⟩)
    ∧ (env.deployResult.resultStatus = .Failed →
        processClassifier statusEntries cluster currentHash env =
          ⟨some ⟨cluster, some .Failed, some currentHash, none⟩, none, false⟩)
    ∧ (env.deployResult.resultStatus = .InProgress →
        processClassifier statusEntries cluster currentHash env =
          ⟨some ⟨cluster, some .Provisioning, some currentHash,
              some (env.deployResult.err.getD "")⟩,
            some "classifier is still being provisioned", false⟩)
    ∧ (env.deployResult.resultStatus = .Unavailable →
        processClassifier statusEntries cluster currentHash env =
          ⟨some ⟨cluster, some .Provisioned, some currentHash, none⟩, none, false⟩) := by
  rw [processClassifier_configSame statusEntries cluster currentHash env hcp hu hsh]
  cases hrs : env.deployResult.resultStatus
  case Deployed => simp [convertResultStatus, hrs]
  case InProgress => simp [convertResultStatus, hrs]
  case Failed => simp [convertResultStatus, hrs]
  case Removed => simp [convertResultStatus, hrs]
  case Unavailable =>
    rcases hok with hok | hok
    · exact absurd hrs hok
    · simp [convertResultStatus, hrs, hok]

/-- A recorded entry for `clusterA` with hash [1] and status Provisioned. -/
def entryProvisionedA : ClusterInfo :=
  { cluster := clusterA, status := some .Provisioned, hash := some [1]
    failureMessage := none }

/-- Concrete instantiation of the amended hash-match theorem: recorded
hash [1] equal to the current hash, recorded status Provisioned, no queue
result — the pair is treated as satisfied with no redispatch. -/
theorem hash_match_translates_result_without_redispatch_witness :
    canProceed envUnavailable = .ok true
    ∧ envUnavailable.undeployInProgress = false
    ∧ storedHashOf [entryProvisionedA] clusterA = some [1]
    ∧ storedStatusOf [entryProvisionedA] clusterA = some (some .Provisioned)
    ∧ (processClassifier [entryProvisionedA] clusterA [1] envUnavailable).deployDispatched
        = false :=
  ⟨rfl, rfl, by decide, by decide,
    (hash_match_translates_result_without_redispatch [entryProvisionedA] clusterA [1]
      envUnavailable rfl rfl (by decide) (Or.inr (by decide))).1⟩

/-- A recorded entry for `clusterA` with hash [1] and status Failed. -/
def entryFailedA : ClusterInfo :=
  { cluster := clusterA, status := some .Failed, hash := some [1]
    failureMessage := none }

/-- A pair environment whose deployer still holds the Failed result of
the previous attempt, with nothing else blocking the pair. -/
def envFailedResult : PairEnv :=
  { pausedResult := .ok false, readyResult := .ok true
    undeployInProgress := false
    deployResult := { resultStatus := .Failed, err := some "deploy failed" }
    deployErr := none }

/-- Claim C4 as stated is false: for the pair (classifier, ns/c1) whose
previous attempt failed (recorded status Failed, queue result Failed)
with an unchanged hash [1], `processClassifier` dispatches no fresh
deploy and returns status Failed, not Provisioning. -/
theorem failed_attempt_not_redispatched_counterexample :
    (processClassifier [entryFailedA] clusterA [1] envFailedResult).deployDispatched = false
    ∧ (processClassifier [entryFailedA] clusterA [1] envFailedResult).clusterInfo =
        some ⟨clusterA, some .Failed, some [1], none⟩ := by
  refine ⟨by decide, by decide⟩

/-- Claim C4 (amended): when the fingerprint changed or was never
recorded for the pair (the recorded hash does not DeepEqual the current
one), or the previous attempt failed and the queue no longer holds a
result (result Unavailable with a recorded status other than
Provisioned), `processClassifier` dispatches a fresh asynchronous deploy
request (provided dispatch succeeds) and returns a ClusterInfo entry with
status Provisioning carrying the new fingerprint. -/
theorem stale_or_unrecorded_config_dispatches_fresh_deploy
    (statusEntries : List ClusterInfo) (cluster : ObjectReference)
    (currentHash : List Nat) (env : PairEnv)
    (hcp : canProceed env = .ok true)
    (hu : env.undeployInProgress = false)
    (hde : env.deployErr = none)
    (hcase : deepEqualHash (storedHashOf statusEntries cluster) currentHash = false
      ∨ (env.deployResult.resultStatus = .Unavailable
         ∧ storedStatusOf statusEntries cluster ≠ some (some .Provisioned))) :
    processClassifier statusEntries cluster currentHash env =
      ⟨some ⟨cluster, some .Provisioning, some currentHash, none⟩, none, true⟩ := by
  rcases hcase with hne | ⟨hrs, hst⟩
  · rw [processClassifier_configDiff statusEntries cluster currentHash env hcp hu hne]
    rw [hde]
  · cases hEq : deepEqualHash (storedHashOf statusEntries cluster) currentHash
    · rw [processClassifier_configDiff statusEntries cluster currentHash env hcp hu hEq]
      rw [hde]
    · rw [processClassifier_configSame statusEntries cluster currentHash env hcp hu
        ((deepEqualHash_eq_true _ _).mp hEq)]
      simp [convertResultStatus, hrs, hst, hde]

/-- A pair environment with no stored queue result and a successful
dispatch path. -/
def envDispatchOk : PairEnv :=
  { pausedResult := .ok false, readyResult := .ok true
    undeployInProgress := false
    deployResult := { resultStatus := .Unavailable, err := none }
    deployErr := none }

/-- Concrete instantiation of the amended dispatch theorem: recorded
hash [1], current hash [2] — a fresh deploy is dispatched and the pair is
marked Provisioning with the new hash. -/
theorem stale_or_unrecorded_config_dispatches_fresh_deploy_witness :
    canProceed envDispatchOk = .ok true
    ∧ envDispatchOk.undeployInProgress = false
    ∧ envDispatchOk.deployErr = none
    ∧ deepEqualHash (storedHashOf [entryFailedA] clusterA) [2] = false
    ∧ processClassifier [entryFailedA] clusterA [2] envDispatchOk =
        ⟨some ⟨clusterA, some .Provisioning, some [2], none⟩, none, true⟩ :=
  ⟨rfl, rfl, rfl, by decide,
    stale_or_unrecorded_config_dispatches_fresh_deploy [entryFailedA] clusterA [2]
      envDispatchOk rfl rfl rfl (Or.inl (by decide))⟩

/-- When the pause/readiness admission fails, `processClassifier` returns
nil ClusterInfo, nil error, and dispatches nothing. -/
theorem processClassifier_skip
    (statusEntries : List ClusterInfo) (cluster : ObjectReference)
    (currentHash : List Nat) (env : PairEnv)
    (hcp : canProceed env = .ok false) :
    processClassifier statusEntries cluster currentHash env = ⟨none, none, false⟩ := by
  unfold processClassifier
  rw [hcp]

/-- Every entry collected by the `deployClassifier` loop was returned by
`processClassifier` for some processed status entry. -/
theorem mem_deployClassifierLoop
    (statusEntries : List ClusterInfo) (currentHash : List Nat)
    (env : ObjectReference → PairEnv) :
    ∀ (l : List ClusterInfo) (ci : ClusterInfo),
      ci ∈ (deployClassifierLoop statusEntries currentHash env l).1 →
      ∃ e ∈ l,
        (processClassifier statusEntries e.cluster currentHash (env e.cluster)).clusterInfo
          = some ci := by
  intro l
  induction l with
  | nil => intro ci hci; simp [deployClassifierLoop] at hci
  | cons e rest ih =>
    intro ci hci
    simp only [deployClassifierLoop] at hci
    cases ho : (processClassifier statusEntries e.cluster currentHash (env e.cluster)).clusterInfo
    · rw [ho] at hci
      obtain ⟨e2, he2, hp2⟩ := ih ci hci
      exact ⟨e2, List.mem_cons_of_mem _ he2, hp2⟩
    · rw [ho] at hci
      rcases List.mem_cons.mp hci with hEq | hmem
      · exact ⟨e, List.mem_cons_self _ _, by rw [ho, hEq]⟩
      · obtain ⟨e2, he2, hp2⟩ := ih ci hmem
        exact ⟨e2, List.mem_cons_of_mem _ he2, hp2⟩

/-- When the pause check itself fails, `processClassifier` propagates the
error without dispatching. -/
theorem processClassifier_canProceedErr
    (statusEntries : List ClusterInfo) (cluster : ObjectReference)
    (currentHash : List Nat) (env : PairEnv) (e : String)
    (hcp : canProceed env = .error e) :
    processClassifier statusEntries cluster currentHash env = ⟨none, some e, false⟩ := by
  unfold processClassifier
  rw [hcp]

/-- When an undeploy for the pair is in flight, `processClassifier`
returns the cleanup-in-progress error without dispatching. -/
theorem processClassifier_undeployBusy
    (statusEntries : List ClusterInfo) (cluster : ObjectReference)
    (currentHash : List Nat) (env : PairEnv)
    (hcp : canProceed env = .ok true)
    (hu : env.undeployInProgress = true) :
    processClassifier statusEntries cluster currentHash env =
      ⟨none, some cleanupInProgressMsg, false⟩ := by
  unfold processClassifier
  rw [hcp]
  simp [hu]

/-- Every ClusterInfo entry `processClassifier` returns carries the
cluster it was called for. -/
theorem processClassifier_clusterInfo_cluster
    (statusEntries : List ClusterInfo) (cluster : ObjectReference)
    (currentHash : List Nat) (env : PairEnv) (ci : ClusterInfo)
    (hci : (processClassifier statusEntries cluster currentHash env).clusterInfo = some ci) :
    ci.cluster = cluster := by
  rcases hc : canProceed env with e | b
  · rw [processClassifier_canProceedErr statusEntries cluster currentHash env e hc] at hci
    simp at hci
  · cases b
    · rw [processClassifier_skip statusEntries cluster currentHash env hc] at hci
      simp at hci
    · cases hu : env.undeployInProgress
      case true =>
        rw [processClassifier_undeployBusy statusEntries cluster currentHash env hc hu]
          at hci
        simp at hci
      case false =>
        cases hEq : deepEqualHash (storedHashOf statusEntries cluster) currentHash
        case false =>
          rw [processClassifier_configDiff statusEntries cluster currentHash env hc hu hEq]
            at hci
          cases hde : env.deployErr
          · rw [hde] at hci
            simp at hci
            subst hci
            rfl
          · rw [hde] at hci
            simp at hci
        case true =>
          rw [processClassifier_configSame statusEntries cluster currentHash env hc hu
            ((deepEqualHash_eq_true _ _).mp hEq)] at hci
          cases hcs : convertResultStatus env.deployResult with
          | none =>
            rw [hcs] at hci
            simp only [] at hci
            by_cases hst :
                storedStatusOf statusEntries cluster = some (some .Provisioned)
            · rw [if_pos hst] at hci
              simp at hci
              subst hci
              rfl
            · rw [if_neg hst] at hci
              cases hde : env.deployErr
              · rw [hde] at hci
                simp at hci
                subst hci
                rfl
              · rw [hde] at hci
                simp at hci
          | some s =>
            rw [hcs] at hci
            simp only [] at hci
            cases s <;> simp at hci <;> subst hci <;> rfl

/-- A pair environment whose cluster is paused. -/
def pausedEnv : PairEnv :=
  { pausedResult := .ok true, readyResult := .ok true
    undeployInProgress := false
    deployResult := { resultStatus := .Unavailable, err := none }
    deployErr := none }

/-- Claim C6 as stated is false: for a paused pair whose entry (hash [1],
status Provisioned) is recorded in Status.ClusterInfo, the pass is a no-op
for the pair but `deployClassifier` rebuilds Status.ClusterInfo without
it — the previously recorded entry is dropped, not left unchanged. -/
theorem paused_pair_entry_dropped_counterexample :
    canProceed pausedEnv = .ok false
    ∧ deployClassifier [entryProvisionedA] [1] (fun _ => pausedEnv) =
        { newClusterInfo := [], err := none }
    ∧ entryProvisionedA ∉
        (deployClassifier [entryProvisionedA] [1] (fun _ => pausedEnv)).newClusterInfo := by
  refine ⟨rfl, by decide, by decide⟩

/-- Claim C6 (amended): for a pair whose cluster is paused or not ready,
the pass is a no-op for that pair — `processClassifier` returns nil
status, nil error and dispatches nothing — but the pair's previously
recorded entry is dropped from the Status.ClusterInfo list that
`deployClassifier` rebuilds for this pass (it is re-added, blank, by a
later pass's `updateClusterInfo`). -/
theorem paused_or_unready_pair_noop_and_dropped
    (statusEntries : List ClusterInfo) (currentHash : List Nat)
    (env : ObjectReference → PairEnv) (cluster : ObjectReference)
    (hcp : canProceed (env cluster) = .ok false) :
    processClassifier statusEntries cluster currentHash (env cluster) =
      ⟨none, none, false⟩
    ∧ ∀ ci ∈ (deployClassifier statusEntries currentHash env).newClusterInfo,
        ci.cluster ≠ cluster := by
  refine ⟨processClassifier_skip statusEntries cluster currentHash (env cluster) hcp, ?_⟩
  intro ci hmem hctr
  obtain ⟨e, _, hp⟩ := mem_deployClassifierLoop statusEntries currentHash env
    statusEntries ci hmem
  have hcl : ci.cluster = e.cluster :=
    processClassifier_clusterInfo_cluster statusEntries e.cluster currentHash
      (env e.cluster) ci hp
  rw [hctr] at hcl
  rw [← hcl] at hp
  rw [processClassifier_skip statusEntries cluster currentHash (env cluster) hcp] at hp
  exact Option.noConfusion hp

/-- Concrete instantiation of the amended paused-pair theorem. -/
theorem paused_or_unready_pair_noop_and_dropped_witness :
    canProceed pausedEnv = .ok false
    ∧ processClassifier [entryProvisionedA] clusterA [1] pausedEnv = ⟨none, none, false⟩
    ∧ ∀ ci ∈ (deployClassifier [entryProvisionedA] [1] (fun _ => pausedEnv)).newClusterInfo,
        ci.cluster ≠ clusterA :=
  ⟨rfl,
    (paused_or_unready_pair_noop_and_dropped [entryProvisionedA] [1]
      (fun _ => pausedEnv) clusterA rfl).1,
    (paused_or_unready_pair_noop_and_dropped [entryProvisionedA] [1]
      (fun _ => pausedEnv) clusterA rfl).2⟩

/-- Reading back a Go map write: the written key sees the new value,
every other key is untouched. -/
theorem mapLookup_mapSet (m : IndexMap) (k : PolicyRef) (v : PolicySet) (c : PolicyRef) :
    mapLookup (mapSet m k v) c = if k = c then v else mapLookup m c := by
  induction m with
  | nil =>
    by_cases h : k = c <;> simp [mapSet, mapLookup, h]
  | cons kv rest ih =>
    obtain ⟨k', v'⟩ := kv
    by_cases h1 : k' = k <;> by_cases h2 : k = c <;>
      simp_all [mapSet, mapLookup]

/-- Reading back a set update through `getClusterMapForEntry`. -/
theorem mapLookup_mapUpdate (m : IndexMap) (k : PolicyRef) (f : PolicySet → PolicySet)
    (c : PolicyRef) :
    mapLookup (mapUpdate m k f) c = if k = c then f (mapLookup m k) else mapLookup m c := by
  unfold mapUpdate
  exact mapLookup_mapSet m k (f (mapLookup m k)) c

/-- Membership after `Set.Insert`. -/
theorem mem_setInsert (s : PolicySet) (x y : PolicyRef) :
    y ∈ setInsert s x ↔ y = x ∨ y ∈ s := by
  unfold setInsert
  split
  · constructor
    · exact fun h => Or.inr h
    · rintro (rfl | h)
      · assumption
      · exact h
  · simp

/-- Membership after `Set.Erase`. -/
theorem mem_setErase (s : PolicySet) (x y : PolicyRef) :
    y ∈ setErase s x ↔ y ∈ s ∧ y ≠ x := by
  unfold setErase
  simp

/-- Membership of `Set.Difference`. -/
theorem mem_setDifference (a b : PolicySet) (y : PolicyRef) :
    y ∈ setDifference a b ↔ y ∈ a ∧ y ∉ b := by
  unfold setDifference
  simp

/-- Membership of the `currentClusters` set built from Status.ClusterInfo. -/
theorem mem_currentClustersOf (entries : List ClusterInfo) (c : PolicyRef) :
    c ∈ currentClustersOf entries ↔ ∃ e ∈ entries, c = clusterPolicyRef e.cluster := by
  unfold currentClustersOf
  suffices h : ∀ (init : PolicySet),
      c ∈ entries.foldl (fun s e => setInsert s (clusterPolicyRef e.cluster)) init ↔
        c ∈ init ∨ ∃ e ∈ entries, c = clusterPolicyRef e.cluster by
    simpa using h []
  induction entries with
  | nil => simp
  | cons e rest ih =>
    intro init
    simp only [List.foldl_cons, ih, mem_setInsert, List.mem_cons]
    constructor
    · rintro ((h | h) | ⟨e2, he2, h⟩)
      · exact Or.inr ⟨e, Or.inl rfl, h⟩
      · exact Or.inl h
      · exact Or.inr ⟨e2, Or.inr he2, h⟩
    · rintro (h | ⟨e2, (rfl | he2), h⟩)
      · exact Or.inl (Or.inr h)
      · exact Or.inl (Or.inl h)
      · exact Or.inr ⟨e2, he2, h⟩

/-- Membership in the reverse map after the insertion loop of
`updateMaps`. -/
theorem mapLookup_insertFold (entries : List ClusterInfo) (P : PolicyRef) :
    ∀ (m : IndexMap) (c p : PolicyRef),
      p ∈ mapLookup
          (entries.foldl
            (fun cm e => mapUpdate cm (clusterPolicyRef e.cluster)
              (fun s => setInsert s P)) m) c
      ↔ p ∈ mapLookup m c ∨ (p = P ∧ ∃ e ∈ entries, c = clusterPolicyRef e.cluster) := by
  induction entries with
  | nil => simp
  | cons e rest ih =>
    intro m c p
    simp only [List.foldl_cons, ih, mapLookup_mapUpdate]
    by_cases hc : clusterPolicyRef e.cluster = c
    · rw [if_pos hc, hc]
      simp only [mem_setInsert, List.mem_cons]
      constructor
      · rintro ((rfl | h) | ⟨rfl, e2, he2, h⟩)
        · exact Or.inr ⟨rfl, e, Or.inl rfl, hc.symm⟩
        · exact Or.inl h
        · exact Or.inr ⟨rfl, e2, Or.inr he2, h⟩
      · rintro (h | ⟨rfl, e2, (rfl | he2), h⟩)
        · exact Or.inl (Or.inr h)
        · exact Or.inl (Or.inl rfl)
        · exact Or.inr ⟨rfl, e2, he2, h⟩
    · rw [if_neg hc]
      simp only [List.mem_cons]
      constructor
      · rintro (h | ⟨rfl, e2, he2, h⟩)
        · exact Or.inl h
        · exact Or.inr ⟨rfl, e2, Or.inr he2, h⟩
      · rintro (h | ⟨rfl, e2, (rfl | he2), h⟩)
        · exact Or.inl h
        · exact absurd h.symm hc
        · exact Or.inr ⟨rfl, e2, he2, h⟩

/-- Membership in the reverse map after the erase loop of `updateMaps`. -/
theorem mapLookup_eraseFold (ks : List PolicyRef) (P : PolicyRef) :
    ∀ (m : IndexMap) (c p : PolicyRef),
      p ∈ mapLookup
          (ks.foldl (fun cm k => mapUpdate cm k (fun s => setErase s P)) m) c
      ↔ p ∈ mapLookup m c ∧ ¬(p = P ∧ c ∈ ks) := by
  induction ks with
  | nil => simp
  | cons k rest ih =>
    intro m c p
    simp only [List.foldl_cons, ih, mapLookup_mapUpdate, List.mem_cons]
    by_cases hc : k = c
    · rw [if_pos hc, hc]
      simp only [mem_setErase]
      tauto
    · rw [if_neg hc]
      constructor
      · rintro ⟨h1, h2⟩
        refine ⟨h1, ?_⟩
        rintro ⟨rfl, (h | h)⟩
        · exact hc h.symm
        · exact h2 ⟨rfl, h⟩
      · rintro ⟨h1, h2⟩
        refine ⟨h1, ?_⟩
        rintro ⟨rfl, h⟩
        exact h2 ⟨rfl, Or.inr h⟩

/-- The index mirror invariant: a policy sits in a cluster's reverse set
exactly when the cluster sits in the policy's forward set. -/
def mirrorIndex (m : ReconcilerMaps) : Prop :=
  ∀ p c, p ∈ mapLookup m.clusterMap c ↔ c ∈ mapLookup m.classifierMap p

/-- Claim C5: `updateMaps` preserves the mirror invariant of the two
index maps, and afterwards the forward entry of the reconciled classifier
holds exactly the clusters listed in its Status.ClusterInfo. -/
theorem updateMaps_mirror_and_exact
    (m : ReconcilerMaps) (classifierName : String) (entries : List ClusterInfo)
    (hm : mirrorIndex m) :
    mirrorIndex (updateMaps m classifierName entries)
    ∧ (∀ c, c ∈ mapLookup (updateMaps m classifierName entries).classifierMap
          (classifierPolicyRef classifierName)
        ↔ ∃ e ∈ entries, c = clusterPolicyRef e.cluster) := by
  have hfwd : ∀ p c,
      c ∈ mapLookup (updateMaps m classifierName entries).classifierMap p ↔
        if classifierPolicyRef classifierName = p then c ∈ currentClustersOf entries
        else c ∈ mapLookup m.classifierMap p := by
    intro p c
    unfold updateMaps
    simp only [mapLookup_mapSet]
    split <;> rfl
  constructor
  · intro p c
    rw [hfwd p c]
    have hrev :
        p ∈ mapLookup (updateMaps m classifierName entries).clusterMap c ↔
          (p ∈ mapLookup m.clusterMap c
            ∨ (p = classifierPolicyRef classifierName
               ∧ ∃ e ∈ entries, c = clusterPolicyRef e.cluster))
          ∧ ¬(p = classifierPolicyRef classifierName
              ∧ c ∈ setDifference
                  (mapLookup m.classifierMap (classifierPolicyRef classifierName))
                  (currentClustersOf entries)) := by
      unfold updateMaps
      rw [mapLookup_eraseFold, mapLookup_insertFold]
    rw [hrev]
    by_cases hp : p = classifierPolicyRef classifierName
    · subst hp
      rw [if_pos rfl]
      rw [mem_setDifference, mem_currentClustersOf]
      have hold := hm (classifierPolicyRef classifierName) c
      constructor
      · rintro ⟨h1 | ⟨_, h2⟩, h3⟩
        · by_contra hE
          exact h3 ⟨rfl, hold.mp h1, hE⟩
        · exact h2
      · intro hE
        exact ⟨Or.inr ⟨rfl, hE⟩, fun h => h.2.2 hE⟩
    · rw [if_neg (fun h => hp h.symm)]
      have hold := hm p c
      constructor
      · rintro ⟨h1 | ⟨h2, _⟩, _⟩
        · exact hold.mp h1
        · exact absurd h2 hp
      · intro h
        exact ⟨Or.inl (hold.mpr h), fun hh => hp hh.1⟩
  · intro c
    rw [hfwd (classifierPolicyRef classifierName) c, if_pos rfl, mem_currentClustersOf]

/-- Concrete instantiation of the mirror-invariant theorem: starting from
empty maps (which trivially satisfy the invariant) and a one-entry
Status.ClusterInfo. -/
theorem updateMaps_mirror_and_exact_witness :
    mirrorIndex { clusterMap := [], classifierMap := [] }
    ∧ (mirrorIndex (updateMaps { clusterMap := [], classifierMap := [] } "acme"
        [entryProvisionedA])
      ∧ ∀ c, c ∈ mapLookup
            (updateMaps { clusterMap := [], classifierMap := [] } "acme"
              [entryProvisionedA]).classifierMap
            (classifierPolicyRef "acme")
          ↔ ∃ e ∈ [entryProvisionedA], c = clusterPolicyRef e.cluster) :=
  ⟨fun p c => by simp [mapLookup],
    updateMaps_mirror_and_exact { clusterMap := [], classifierMap := [] } "acme"
      [entryProvisionedA] (fun p c => by simp [mapLookup])⟩

/-- When the cluster-collection loop succeeds, every entry's cluster was
either not found (skipped) or found and collected. -/
theorem collectClusters_ok_mem (env : ObjectReference → DeleteEntryEnv) :
    ∀ (entries : List ClusterInfo) (clusters : List ObjectReference),
      collectClusters entries env = .ok clusters →
      ∀ e ∈ entries,
        (env e.cluster).getCluster = .notFound
        ∨ ((env e.cluster).getCluster = .found ∧ e.cluster ∈ clusters) := by
  intro entries
  induction entries with
  | nil => intro clusters _ e he; exact absurd he (List.not_mem_nil e)
  | cons e0 rest ih =>
    intro clusters hok e he
    unfold collectClusters at hok
    cases hg : (env e0.cluster).getCluster
    case notFound =>
      rw [hg] at hok
      rcases List.mem_cons.mp he with rfl | he2
      · exact Or.inl hg
      · exact ih clusters hok e he2
    case apiError msg =>
      rw [hg] at hok
      exact absurd hok (by simp)
    case found =>
      rw [hg] at hok
      cases hrest : collectClusters rest env
      case error msg => rw [hrest] at hok; exact absurd hok (by simp)
      case ok l =>
        rw [hrest] at hok
        simp only [Except.ok.injEq] at hok
        subst hok
        rcases List.mem_cons.mp he with rfl | he2
        · exact Or.inr ⟨hg, List.mem_cons_self _ _⟩
        · rcases ih l hrest e he2 with h | ⟨h1, h2⟩
          · exact Or.inl h
          · exact Or.inr ⟨h1, List.mem_cons_of_mem _ h2⟩

/-- When no entry's cluster lookup hits an API error, the collection loop
succeeds. -/
theorem collectClusters_no_apiError (env : ObjectReference → DeleteEntryEnv) :
    ∀ (entries : List ClusterInfo),
      (∀ e ∈ entries, ∀ msg, (env e.cluster).getCluster ≠ .apiError msg) →
      ∃ clusters, collectClusters entries env = .ok clusters := by
  intro entries
  induction entries with
  | nil => intro _; exact ⟨[], rfl⟩
  | cons e0 rest ih =>
    intro hok
    obtain ⟨l, hl⟩ := ih (fun e he msg => hok e (List.mem_cons_of_mem _ he) msg)
    unfold collectClusters
    cases hg : (env e0.cluster).getCluster
    case notFound => exact ⟨l, hl⟩
    case apiError msg => exact absurd hg (hok e0 (List.mem_cons_self _ _) msg)
    case found => exact ⟨e0.cluster :: l, by rw [hl]⟩

/-- `removeClassifier` reports success only for a paused cluster or a
confirmed Removed result. -/
theorem removeClassifier_err_none_cases (renv : RemovePairEnv)
    (h : (removeClassifier renv).err = none) :
    renv.pausedResult = .ok true
    ∨ convertResultStatus renv.undeployResult = some .Removed := by
  unfold removeClassifier at h
  cases hp : renv.pausedResult with
  | error e => rw [hp] at h; simp at h
  | ok b =>
    cases b
    · rw [hp] at h
      cases hd : renv.deployInProgress
      · rw [hd] at h
        simp only [Bool.false_eq_true, if_false] at h
        by_cases h1 : convertResultStatus renv.undeployResult = some .Provisioning
        · rw [if_pos h1] at h; simp at h
        · rw [if_neg h1] at h
          by_cases h2 : convertResultStatus renv.undeployResult = some .Removed
          · exact Or.inr h2
          · rw [if_neg h2] at h
            cases hde : renv.undeployDispatchErr <;> rw [hde] at h <;> simp at h
      · rw [hd] at h
        simp at h
    · exact Or.inl rfl

/-- `removeClassifier` dispatches an undeploy request for a non-paused
cluster with no deploy in flight and no in-flight or Removed undeploy
result. -/
theorem removeClassifier_dispatches (renv : RemovePairEnv)
    (hp : renv.pausedResult = .ok false)
    (hd : renv.deployInProgress = false)
    (h1 : convertResultStatus renv.undeployResult ≠ some .Provisioning)
    (h2 : convertResultStatus renv.undeployResult ≠ some .Removed) :
    (removeClassifier renv).undeployDispatched = true := by
  unfold removeClassifier
  rw [hp, hd]
  simp only [Bool.false_eq_true, if_false, if_neg h1, if_neg h2]
  cases renv.undeployDispatchErr <;> rfl

/-- `undeployClassifier` succeeds only when collection succeeded and
`removeClassifier` succeeded for every collected cluster. -/
theorem undeployClassifier_err_none (entries : List ClusterInfo)
    (env : ObjectReference → DeleteEntryEnv)
    (h : (undeployClassifier entries env).err = none) :
    ∃ clusters, collectClusters entries env = .ok clusters
      ∧ ∀ c ∈ clusters, (removeClassifier (env c).remove).err = none := by
  unfold undeployClassifier at h
  cases hc : collectClusters entries env with
  | error e => rw [hc] at h; simp at h
  | ok clusters =>
    rw [hc] at h
    simp only [] at h
    refine ⟨clusters, rfl, ?_⟩
    by_cases hlen :
        ((clusters.map fun c => (c, removeClassifier (env c).remove)).filterMap
          (fun p => p.2.err.map (fun msg =>
            ({ cluster := p.1, status := some .Removing, hash := none
               failureMessage := some msg } : ClusterInfo)))).length = 0
    · intro c hcmem
      have hnil := List.length_eq_zero.mp hlen
      have hall := List.filterMap_eq_nil_iff.mp hnil
      have hp : (c, removeClassifier (env c).remove) ∈
          clusters.map fun c => (c, removeClassifier (env c).remove) :=
        List.mem_map.mpr ⟨c, hcmem, rfl⟩
      have hnone := hall _ hp
      exact Option.map_eq_none'.mp hnone
    · rw [if_pos hlen] at h
      simp at h

/-- The finalizer is removed only after successful deregistration and a
successful undeploy pass. -/
theorem reconcileDelete_finalizer_requires (entries : List ClusterInfo) (env : DeleteEnv)
    (h : (reconcileDelete entries env).finalizerRemoved = true) :
    env.removeRegistrationsErr = none
    ∧ (undeployClassifier entries env.entryEnv).err = none := by
  unfold reconcileDelete at h
  cases hr : env.removeRegistrationsErr
  · rw [hr] at h
    simp only [] at h
    cases hu : (undeployClassifier entries env.entryEnv).err
    · exact ⟨rfl, rfl⟩
    · rw [hu] at h
      simp at h
  · rw [hr] at h
    simp at h

/-- A failing undeploy pass requeues the deletion and keeps the
finalizer. -/
theorem reconcileDelete_requeue_of_undeploy_err (entries : List ClusterInfo)
    (env : DeleteEnv)
    (hr : env.removeRegistrationsErr = none)
    (hu : (undeployClassifier entries env.entryEnv).err.isSome = true) :
    (reconcileDelete entries env).requeue = true
    ∧ (reconcileDelete entries env).finalizerRemoved = false := by
  unfold reconcileDelete
  rw [hr]
  simp [hu]

/-- `reconcileDelete` reports exactly the undeploy dispatches of its
`undeployClassifier` pass. -/
theorem reconcileDelete_dispatchedOn (entries : List ClusterInfo) (env : DeleteEnv)
    (hr : env.removeRegistrationsErr = none) :
    (reconcileDelete entries env).undeployDispatchedOn =
      (undeployClassifier entries env.entryEnv).undeployDispatchedOn := by
  unfold reconcileDelete
  rw [hr]
  simp only []
  repeat (first | rfl | split)

/-- The dispatch list of a successful collection pass. -/
theorem undeployClassifier_dispatchedOn (entries : List ClusterInfo)
    (env : ObjectReference → DeleteEntryEnv) (clusters : List ObjectReference)
    (hc : collectClusters entries env = .ok clusters) :
    (undeployClassifier entries env).undeployDispatchedOn =
      (clusters.map fun c => (c, removeClassifier (env c).remove)).filterMap
        (fun p => if p.2.undeployDispatched then some p.1 else none) := by
  unfold undeployClassifier
  rw [hc]
  simp only []
  split <;> rfl

/-- One still-failing entry makes the whole undeploy pass fail. -/
theorem undeployClassifier_err_isSome_of_entry_failure (entries : List ClusterInfo)
    (env : ObjectReference → DeleteEntryEnv) (e : ClusterInfo)
    (he : e ∈ entries)
    (hfound : (env e.cluster).getCluster = .found)
    (herr : (removeClassifier (env e.cluster).remove).err ≠ none) :
    (undeployClassifier entries env).err.isSome = true := by
  cases hc : collectClusters entries env with
  | error msg =>
    unfold undeployClassifier
    rw [hc]
    rfl
  | ok clusters =>
    have hmem : e.cluster ∈ clusters := by
      rcases collectClusters_ok_mem env entries clusters hc e he with hnf | ⟨_, hm⟩
      · rw [hfound] at hnf
        exact absurd hnf (by simp)
      · exact hm
    obtain ⟨msg, hmsg⟩ := Option.ne_none_iff_exists'.mp herr
    have hpmem : (e.cluster, removeClassifier (env e.cluster).remove) ∈
        clusters.map fun c => (c, removeClassifier (env c).remove) :=
      List.mem_map.mpr ⟨e.cluster, hmem, rfl⟩
    have hmemF : (⟨e.cluster, some .Removing, none, some msg⟩ : ClusterInfo) ∈
        (clusters.map fun c => (c, removeClassifier (env c).remove)).filterMap
          (fun p => p.2.err.map (fun m =>
            (⟨p.1, some .Removing, none, some m⟩ : ClusterInfo))) :=
      List.mem_filterMap.mpr ⟨(e.cluster, removeClassifier (env e.cluster).remove),
        hpmem, by rw [hmsg]; rfl⟩
    have hlen : ((clusters.map fun c => (c, removeClassifier (env c).remove)).filterMap
        (fun p => p.2.err.map (fun m =>
          (⟨p.1, some .Removing, none, some m⟩ : ClusterInfo)))).length ≠ 0 := by
      intro h0
      rw [List.length_eq_zero.mp h0] at hmemF
      exact absurd hmemF (List.not_mem_nil _)
    unfold undeployClassifier
    rw [hc]
    simp only []
    rw [if_pos hlen]
    rfl

/-- A delete environment whose single cluster exists but is paused:
registrations, report removal and access-request removal all succeed. -/
def pausedDeleteEnv : DeleteEnv :=
  { removeRegistrationsErr := none
    entryEnv := fun _ =>
      { getCluster := .found
        remove :=
          { pausedResult := .ok true, deployInProgress := false
            undeployResult := { resultStatus := .Unavailable, err := none }
            undeployDispatchErr := none } }
    removeReportsErr := none
    mode := .AgentSendReportsNoGateway
    removeAccessRequestErr := none }

/-- Claim C7 as stated is false: with one recorded entry (status
Provisioned) whose cluster exists but is paused, `reconcileDelete`
removes the finalizer in a pass where the entry never reached Removed
(the undeploy result is Unavailable and no undeploy was even
dispatched) and the owning cluster still exists. -/
theorem finalizer_removed_despite_paused_cluster_counterexample :
    (pausedDeleteEnv.entryEnv clusterA).getCluster = .found
    ∧ entryProvisionedA.status = some .Provisioned
    ∧ convertResultStatus (pausedDeleteEnv.entryEnv clusterA).remove.undeployResult ≠
        some .Removed
    ∧ reconcileDelete [entryProvisionedA] pausedDeleteEnv =
        { finalizerRemoved := true, requeue := false, err := none
          undeployDispatchedOn := [] } := by
  refine ⟨rfl, rfl, by decide, by decide⟩

/-- Claim C7 (amended): on deletion, an undeploy is dispatched for every
recorded entry whose cluster exists, is not paused, has no deploy in
flight and no in-flight or confirmed undeploy result; the finalizer is
removed only in a pass where every entry has either reached Removed, or
its owning cluster no longer exists, or its cluster is paused (pause
suppresses teardown); and while any existing entry still fails removal,
`reconcileDelete` requeues with the finalizer retained. -/
theorem delete_drives_undeploy_and_gates_finalizer
    (entries : List ClusterInfo) (env : DeleteEnv) :
    ((reconcileDelete entries env).finalizerRemoved = true →
      ∀ e ∈ entries,
        (env.entryEnv e.cluster).getCluster = .notFound
        ∨ (env.entryEnv e.cluster).remove.pausedResult = .ok true
        ∨ convertResultStatus (env.entryEnv e.cluster).remove.undeployResult =
            some .Removed)
    ∧ (∀ e ∈ entries, env.removeRegistrationsErr = none →
        (env.entryEnv e.cluster).getCluster = .found →
        (removeClassifier (env.entryEnv e.cluster).remove).err ≠ none →
        (reconcileDelete entries env).requeue = true
        ∧ (reconcileDelete entries env).finalizerRemoved = false)
    ∧ (∀ e ∈ entries, env.removeRegistrationsErr = none →
        (∀ e2 ∈ entries, ∀ msg, (env.entryEnv e2.cluster).getCluster ≠ .apiError msg) →
        (env.entryEnv e.cluster).getCluster = .found →
        (env.entryEnv e.cluster).remove.pausedResult = .ok false →
        (env.entryEnv e.cluster).remove.deployInProgress = false →
        convertResultStatus (env.entryEnv e.cluster).remove.undeployResult ≠
          some .Provisioning →
        convertResultStatus (env.entryEnv e.cluster).remove.undeployResult ≠
          some .Removed →
        e.cluster ∈ (reconcileDelete entries env).undeployDispatchedOn) := by
  refine ⟨?_, ?_, ?_⟩
  · intro hfin e he
    obtain ⟨hr, hu⟩ := reconcileDelete_finalizer_requires entries env hfin
    obtain ⟨clusters, hc, hall⟩ := undeployClassifier_err_none entries env.entryEnv hu
    rcases collectClusters_ok_mem env.entryEnv entries clusters hc e he with hnf | ⟨_, hm⟩
    · exact Or.inl hnf
    · rcases removeClassifier_err_none_cases _ (hall e.cluster hm) with h | h
      · exact Or.inr (Or.inl h)
      · exact Or.inr (Or.inr h)
  · intro e he hr hfound herr
    exact reconcileDelete_requeue_of_undeploy_err entries env hr
      (undeployClassifier_err_isSome_of_entry_failure entries env.entryEnv e he
        hfound herr)
  · intro e he hr hnoapi hfound hp hd h1 h2
    obtain ⟨clusters, hc⟩ := collectClusters_no_apiError env.entryEnv entries hnoapi
    have hmem : e.cluster ∈ clusters := by
      rcases collectClusters_ok_mem env.entryEnv entries clusters hc e he with hnf | ⟨_, hm⟩
      · rw [hfound] at hnf
        exact absurd hnf (by simp)
      · exact hm
    have hdisp := removeClassifier_dispatches _ hp hd h1 h2
    rw [reconcileDelete_dispatchedOn entries env hr,
      undeployClassifier_dispatchedOn entries env.entryEnv clusters hc]
    exact List.mem_filterMap.mpr
      ⟨(e.cluster, removeClassifier (env.entryEnv e.cluster).remove),
        List.mem_map.mpr ⟨e.cluster, hmem, rfl⟩, by rw [hdisp]; rfl⟩

/-- A delete environment whose single cluster exists, is not paused, and
has no result for the undeploy yet. -/
def activeDeleteEnv : DeleteEnv :=
  { removeRegistrationsErr := none
    entryEnv := fun _ =>
      { getCluster := .found
        remove :=
          { pausedResult := .ok false, deployInProgress := false
            undeployResult := { resultStatus := .Unavailable, err := none }
            undeployDispatchErr := none } }
    removeReportsErr := none
    mode := .AgentSendReportsNoGateway
    removeAccessRequestErr := none }

/-- Concrete instantiation of the amended deletion theorem: a live,
unpaused cluster with no undeploy result gets an undeploy dispatched, and
the still-queued cleanup requeues with the finalizer retained. -/
theorem delete_drives_undeploy_and_gates_finalizer_witness :
    entryProvisionedA ∈ [entryProvisionedA]
    ∧ activeDeleteEnv.removeRegistrationsErr = none
    ∧ (activeDeleteEnv.entryEnv entryProvisionedA.cluster).getCluster = .found
    ∧ (removeClassifier (activeDeleteEnv.entryEnv entryProvisionedA.cluster).remove).err
        ≠ none
    ∧ ((reconcileDelete [entryProvisionedA] activeDeleteEnv).requeue = true
       ∧ (reconcileDelete [entryProvisionedA] activeDeleteEnv).finalizerRemoved = false)
    ∧ entryProvisionedA.cluster ∈
        (reconcileDelete [entryProvisionedA] activeDeleteEnv).undeployDispatchedOn :=
  ⟨List.mem_cons_self _ _, rfl, rfl, by decide,
    (delete_drives_undeploy_and_gates_finalizer [entryProvisionedA] activeDeleteEnv).2.1
      entryProvisionedA (List.mem_cons_self _ _) rfl rfl (by decide),
    (delete_drives_undeploy_and_gates_finalizer [entryProvisionedA] activeDeleteEnv).2.2
      entryProvisionedA (List.mem_cons_self _ _) rfl
      (fun _ _ _ h => GetClusterRes.noConfusion h) rfl rfl rfl (by decide) (by decide)⟩

/-- Decomposition of the per-cluster registration call sequence around
any currently matching cluster, for any trailing call list. -/
theorem regCalls_split (c : ObjectReference) :
    ∀ (current : List ObjectReference) (tail : List ArbiterCall), c ∈ current →
      ∃ l1 l2 l3,
        (current.foldr
          (fun c acc =>
            .removeStale c.nspace c.name :: .registerLabels c.nspace c.name :: acc) [])
          ++ tail =
        l1 ++ .removeStale c.nspace c.name :: (l2 ++ .registerLabels c.nspace c.name :: l3)
      := by
  intro current
  induction current with
  | nil => intro tail hc; exact absurd hc (List.not_mem_nil c)
  | cons c0 rest ih =>
    intro tail hc
    rcases List.mem_cons.mp hc with rfl | hc2
    · exact ⟨[], [],
        (rest.foldr (fun c acc =>
          .removeStale c.nspace c.name :: .registerLabels c.nspace c.name :: acc) [])
          ++ tail, by simp⟩
    · obtain ⟨l1, l2, l3, hl⟩ := ih tail hc2
      refine ⟨.removeStale c0.nspace c0.name :: .registerLabels c0.nspace c0.name :: l1,
        l2, l3, ?_⟩
      simp only [List.foldr_cons, List.cons_append, hl]

/-- Claim C8: in every pass, `handleLabelRegistrations` calls
`RemoveStaleRegistrations` before `RegisterClassifierForLabels` for each
currently matching cluster, and calls `RemoveAllRegistrations` for every
previously matching cluster that no longer matches. -/
theorem stale_removal_precedes_registration (current old : List ObjectReference) :
    (∀ c ∈ current, ∃ l1 l2 l3,
      handleLabelRegistrations current old =
        l1 ++ .removeStale c.nspace c.name ::
          (l2 ++ .registerLabels c.nspace c.name :: l3))
    ∧ (∀ c ∈ old, c ∉ current →
        .removeAll c.nspace c.name ∈ handleLabelRegistrations current old) := by
  constructor
  · intro c hc
    exact regCalls_split c current _ hc
  · intro c hco hnc
    unfold handleLabelRegistrations
    refine List.mem_append_right _ ?_
    exact List.mem_map.mpr ⟨c, List.mem_filter.mpr ⟨hco, by simpa using hnc⟩, rfl⟩

/-- The matching cluster ns/m1. -/
def refM1 : ObjectReference := { nspace := "ns", name := "m1", apiVersion := "", kind := "" }

/-- The no-longer-matching cluster ns/m2. -/
def refM2 : ObjectReference := { nspace := "ns", name := "m2", apiVersion := "", kind := "" }

/-- Concrete instantiation of the arbiter-ordering theorem with one
matching cluster and one cluster that stopped matching. -/
theorem stale_removal_precedes_registration_witness :
    refM1 ∈ [refM1]
    ∧ refM2 ∈ [refM2]
    ∧ refM2 ∉ [refM1]
    ∧ (∃ l1 l2 l3,
        handleLabelRegistrations [refM1] [refM2] =
          l1 ++ .removeStale refM1.nspace refM1.name ::
            (l2 ++ .registerLabels refM1.nspace refM1.name :: l3))
    ∧ .removeAll refM2.nspace refM2.name ∈ handleLabelRegistrations [refM1] [refM2] :=
  ⟨List.mem_cons_self _ _, List.mem_cons_self _ _, by decide,
    (stale_removal_precedes_registration [refM1] [refM2]).1 refM1 (List.mem_cons_self _ _),
    (stale_removal_precedes_registration [refM1] [refM2]).2 refM2 (List.mem_cons_self _ _)
      (by decide)⟩

/-- Filtering commutes with mapping when the predicate factors through
the mapped function. -/
theorem filter_of_map (l : List ObjectReference) (p : String → Bool)
    (f : ObjectReference → String) :
    (l.map f).filter p = (l.filter (fun x => p (f x))).map f := by
  induction l with
  | nil => rfl
  | cons a t ih =>
    simp only [List.map_cons, List.filter_cons]
    cases hp : p (f a) <;> simp [hp, ih]

/-- Claim C9: `updateClusterInfo` only grows Status.ClusterInfo — the
previous entries form a prefix of the result; every other entry is a
fresh zero-status entry for a live, non-deleting cluster whose
namespace/name key was absent; every such cluster gains an entry; and
keying by namespace/name keeps at most one entry per distinct cluster. -/
theorem updateClusterInfo_only_appends
    (statusEntries : List ClusterInfo) (clusterList : List ClusterObj) :
    (∃ t, updateClusterInfo statusEntries (getListOfClusters clusterList) =
        statusEntries ++ t)
    ∧ (∀ e ∈ updateClusterInfo statusEntries (getListOfClusters clusterList),
        e ∈ statusEntries
        ∨ (e.status = none ∧ e.hash = none ∧ e.failureMessage = none
           ∧ getClusterID e.cluster ∉ statusEntries.map (fun s => getClusterID s.cluster)
           ∧ ∃ c ∈ clusterList, c.deleting = false ∧ e.cluster = clusterRef c))
    ∧ (∀ c ∈ clusterList, c.deleting = false →
        getClusterID (clusterRef c) ∉ statusEntries.map (fun s => getClusterID s.cluster) →
        (⟨clusterRef c, none, none, none⟩ : ClusterInfo) ∈
          updateClusterInfo statusEntries (getListOfClusters clusterList))
    ∧ ((clusterList.map (fun c => getClusterID (clusterRef c))).Nodup →
       (statusEntries.map (fun s => getClusterID s.cluster)).Nodup →
       ((updateClusterInfo statusEntries (getListOfClusters clusterList)).map
          (fun e => getClusterID e.cluster)).Nodup) := by
  refine ⟨⟨_, rfl⟩, ?_, ?_, ?_⟩
  · intro e he
    unfold updateClusterInfo at he
    simp only [] at he
    rcases List.mem_append.mp he with h | h
    · exact Or.inl h
    · obtain ⟨c', hc', rfl⟩ := List.mem_map.mp h
      obtain ⟨hcm, hp⟩ := List.mem_filter.mp hc'
      unfold getListOfClusters at hcm
      obtain ⟨cobj, hcobj, rfl⟩ := List.mem_map.mp hcm
      obtain ⟨hmem, hdel⟩ := List.mem_filter.mp hcobj
      refine Or.inr ⟨rfl, rfl, rfl, by simpa using hp, cobj, hmem, ?_, rfl⟩
      simpa using hdel
  · intro c hc hdel hkey
    unfold updateClusterInfo
    simp only []
    refine List.mem_append_right _ ?_
    refine List.mem_map.mpr ⟨clusterRef c, ?_, rfl⟩
    refine List.mem_filter.mpr ⟨?_, by simpa using hkey⟩
    unfold getListOfClusters
    exact List.mem_map.mpr ⟨c, List.mem_filter.mpr ⟨hc, by simpa using hdel⟩, rfl⟩
  · intro hcl hst
    unfold updateClusterInfo
    simp only []
    rw [List.map_append]
    refine List.Nodup.append hst ?_ ?_
    · rw [List.map_map]
      have hcomp :
          ((getListOfClusters clusterList).filter
            (fun c => decide (getClusterID c ∉
              statusEntries.map (fun s => getClusterID s.cluster)))).map
            ((fun e : ClusterInfo => getClusterID e.cluster) ∘
              (fun c => (⟨c, none, none, none⟩ : ClusterInfo))) =
          ((getListOfClusters clusterList).map getClusterID).filter
            (fun k => decide (k ∉ statusEntries.map (fun s => getClusterID s.cluster))) := by
        rw [filter_of_map]
        rfl
      rw [hcomp]
      refine List.Nodup.filter _ ?_
      unfold getListOfClusters
      rw [List.map_map]
      have hsub : List.Sublist
          ((clusterList.filter (fun c => !c.deleting)).map (getClusterID ∘ clusterRef))
          (clusterList.map (getClusterID ∘ clusterRef)) :=
        List.Sublist.map _ (List.filter_sublist clusterList)
      exact (List.Nodup.sublist hsub) hcl
    · refine List.disjoint_left.mpr ?_
      intro a ha hN
      rw [List.map_map] at hN
      have hcomp :
          ((getListOfClusters clusterList).filter
            (fun c => decide (getClusterID c ∉
              statusEntries.map (fun s => getClusterID s.cluster)))).map
            ((fun e : ClusterInfo => getClusterID e.cluster) ∘
              (fun c => (⟨c, none, none, none⟩ : ClusterInfo))) =
          ((getListOfClusters clusterList).map getClusterID).filter
            (fun k => decide (k ∉ statusEntries.map (fun s => getClusterID s.cluster))) := by
        rw [filter_of_map]
        rfl
      rw [hcomp] at hN
      have := (List.mem_filter.mp hN).2
      exact (of_decide_eq_true this) ha

/-- A live cluster ns/c1. -/
def clusterObjC1 : ClusterObj := { nspace := "ns", name := "c1", deleting := false }

/-- A live cluster ns/c2, not yet recorded. -/
def clusterObjC2 : ClusterObj := { nspace := "ns", name := "c2", deleting := false }

/-- Concrete instantiation of the updateClusterInfo theorem: with one
recorded entry (ns/c1) and two live clusters, the newly discovered ns/c2
gains a zero-status entry, and the keys stay duplicate-free. -/
theorem updateClusterInfo_only_appends_witness :
    clusterObjC2 ∈ [clusterObjC1, clusterObjC2]
    ∧ clusterObjC2.deleting = false
    ∧ getClusterID (clusterRef clusterObjC2) ∉
        [entryProvisionedA].map (fun s => getClusterID s.cluster)
    ∧ (⟨clusterRef clusterObjC2, none, none, none⟩ : ClusterInfo) ∈
        updateClusterInfo [entryProvisionedA]
          (getListOfClusters [clusterObjC1, clusterObjC2])
    ∧ ((updateClusterInfo [entryProvisionedA]
          (getListOfClusters [clusterObjC1, clusterObjC2])).map
          (fun e => getClusterID e.cluster)).Nodup :=
  ⟨by decide, rfl, by decide,
    (updateClusterInfo_only_appends [entryProvisionedA]
      [clusterObjC1, clusterObjC2]).2.2.1 clusterObjC2 (by decide) rfl (by decide),
    (updateClusterInfo_only_appends [entryProvisionedA]
      [clusterObjC1, clusterObjC2]).2.2.2 (by decide) (by decide)⟩
